import Mathlib

/-!
Verification of the lazywork navigation and session-state core.

The definitions below are a shallow embedding of the Go sources:
  * the history store (internal/state, bundled in src/internal/git/git.go):
    `RepoState`, `WorktreeHistory`, `RecordVisit`, `GetPrevious`, `GetCurrent`,
    `SaveHistory`, `LoadHistory`;
  * the repo-local session state files and helpers (src/internal/git/git.go):
    `SaveState`, `LoadState`, `ClearState`, `hasSavedState`, `saveUseState`,
    `loadUseState`, `clearUseState`;
  * the navigation commands (src/cmd/worktree.go): `runWorktreeGo`,
    `runWorktreeUse`, with the worktree-name resolution loop `resolveWorktree`.

Go maps with string keys are modelled as association lists; the filesystem as
association lists of file contents; external git effects (checkout, stash) as
explicit fields of a `GitState` record, with checkout fallibility modelled by a
set of branches on which `git checkout` fails.
-/

namespace LazyWork

/-! ### Association lists, modelling Go maps and directories of small files -/

/-- Lookup modelling Go map access, returning `none` for a missing key. -/
def alFind {α : Type} (m : List (String × α)) (k : String) : Option α :=
  match m with
  | [] => none
  | (k', v) :: rest => if k' = k then some v else alFind rest k

/-- Update modelling Go map assignment: replace in place or append. -/
def alInsert {α : Type} (m : List (String × α)) (k : String) (v : α) : List (String × α) :=
  match m with
  | [] => [(k, v)]
  | (k', v') :: rest => if k' = k then (k, v) :: rest else (k', v') :: alInsert rest k v

/-- Removal modelling `os.Remove` of a state file / map key deletion. -/
def alErase {α : Type} (m : List (String × α)) (k : String) : List (String × α) :=
  match m with
  | [] => []
  | (k', v') :: rest => if k' = k then alErase rest k else (k', v') :: alErase rest k

theorem alFind_alInsert {α : Type} (m : List (String × α)) (k k' : String) (v : α) :
    alFind (alInsert m k v) k' = if k' = k then some v else alFind m k' := by
  induction m with
  | nil =>
    by_cases h : k' = k
    · simp [alInsert, alFind, h]
    · simp [alInsert, alFind, h, Ne.symm h]
  | cons p rest ih =>
    obtain ⟨a, b⟩ := p
    by_cases hak : a = k
    · subst hak
      by_cases h : k' = a
      · simp [alInsert, alFind, h]
      · simp [alInsert, alFind, h, Ne.symm h]
    · by_cases hak' : a = k'
      · subst hak'
        simp [alInsert, alFind, hak, Ne.symm hak]
      · simp [alInsert, alFind, hak, hak', ih]

theorem alFind_alErase {α : Type} (m : List (String × α)) (k k' : String) :
    alFind (alErase m k) k' = if k' = k then none else alFind m k' := by
  induction m with
  | nil => simp [alErase, alFind]
  | cons p rest ih =>
    obtain ⟨a, b⟩ := p
    by_cases hak : a = k
    · subst hak
      by_cases h : k' = a
      · subst h
        simp [alErase, alFind, ih]
      · simp [alErase, alFind, h, Ne.symm h, ih]
    · by_cases hak' : a = k'
      · subst hak'
        simp [alErase, alFind, hak, Ne.symm hak]
      · simp [alErase, alFind, hak, hak', ih]

/-! ### History store data model (internal/state) -/

/-- Mirrors Go `type RepoState struct \x7b Previous, Current string \x7d`. -/
structure RepoState where
  previous : String
  current : String
deriving DecidableEq

/-- Mirrors Go `type WorktreeHistory struct`: a map from repository key to
`RepoState` plus an `updated_at` timestamp (modelled as a natural number).
The Go map is modelled as an association list; the `nil` map of Go behaves
exactly like the empty list here (looked-up entries default to the zero
value), matching the `h.RepoHistory == nil` checks in the source. -/
structure WorktreeHistory where
  repoHistory : List (String × RepoState)
  updatedAt : Nat
deriving DecidableEq

/-- Lookup modelling `h.RepoHistory[repoRoot]`: a missing key yields the Go
zero value `RepoState \x7b\x7d`. -/
def lookupState (m : List (String × RepoState)) (k : String) : RepoState :=
  (alFind m k).getD ⟨"", ""⟩

/-- Embeds `func (h *WorktreeHistory) RecordVisit(repoRoot, worktreePath string)`:
only updates when the visit actually changes worktrees. -/
def RecordVisit (h : WorktreeHistory) (repoRoot worktreePath : String) : WorktreeHistory :=
  let state := lookupState h.repoHistory repoRoot
  if state.current ≠ worktreePath then
    { h with repoHistory := alInsert h.repoHistory repoRoot ⟨state.current, worktreePath⟩ }
  else
    h

/-- Embeds `func (h *WorktreeHistory) GetPrevious(repoRoot string) string`. -/
def GetPrevious (h : WorktreeHistory) (repoRoot : String) : String :=
  (lookupState h.repoHistory repoRoot).previous

/-- Embeds `func (h *WorktreeHistory) GetCurrent(repoRoot string) string`. -/
def GetCurrent (h : WorktreeHistory) (repoRoot : String) : String :=
  (lookupState h.repoHistory repoRoot).current

theorem lookupState_alInsert (m : List (String × RepoState)) (k k' : String) (v : RepoState) :
    lookupState (alInsert m k v) k' = if k' = k then v else lookupState m k' := by
  unfold lookupState
  rw [alFind_alInsert]
  by_cases h : k' = k <;> simp [h]

/-- After a visit the current entry is the visited path, unconditionally. -/
theorem GetCurrent_RecordVisit (h : WorktreeHistory) (r p : String) :
    GetCurrent (RecordVisit h r p) r = p := by
  unfold RecordVisit GetCurrent
  by_cases hc : (lookupState h.repoHistory r).current = p
  · simp [hc]
  · simp [hc, lookupState_alInsert]

/-- Visiting a path different from the current one shifts current to previous. -/
theorem GetPrevious_RecordVisit_ne (h : WorktreeHistory) (r p : String)
    (hne : (lookupState h.repoHistory r).current ≠ p) :
    GetPrevious (RecordVisit h r p) r = GetCurrent h r := by
  unfold RecordVisit GetPrevious GetCurrent
  simp [hne, lookupState_alInsert]

/-- Re-visiting the current path is a no-op on the whole store. -/
theorem RecordVisit_noop (h : WorktreeHistory) (r p : String)
    (hc : (lookupState h.repoHistory r).current = p) : RecordVisit h r p = h := by
  unfold RecordVisit
  simp [hc]

/-- The full repository entry after a state-changing visit. -/
theorem lookupState_RecordVisit_ne (h : WorktreeHistory) (r p : String)
    (hne : (lookupState h.repoHistory r).current ≠ p) :
    lookupState (RecordVisit h r p).repoHistory r =
      ⟨(lookupState h.repoHistory r).current, p⟩ := by
  unfold RecordVisit
  simp [hne, lookupState_alInsert]

/-! ### History persistence (internal/state: HistoryPath, LoadHistory, Save)

The history file holds the JSON serialization of `WorktreeHistory`. JSON
(de)serialization by Go's encoding/json is modelled by the structural
encode/decode pair below, which is faithful because encoding/json is
injective on this concrete type (a string-keyed map of two-string structs
plus an RFC3339 timestamp). The disk is modelled as `Option HistoryFile`:
`none` is "file does not exist". -/

/-- Serialized form of the history file on disk. -/
structure HistoryFile where
  repoHistory : List (String × String × String)
  updatedAt : Nat
deriving DecidableEq

/-- Models `json.MarshalIndent` of a `WorktreeHistory`. -/
def encodeHistory (h : WorktreeHistory) : HistoryFile :=
  ⟨h.repoHistory.map (fun p => (p.1, p.2.previous, p.2.current)), h.updatedAt⟩

/-- Models `json.Unmarshal` into a `WorktreeHistory`. -/
def decodeHistory (f : HistoryFile) : WorktreeHistory :=
  ⟨f.repoHistory.map (fun t => (t.1, ⟨t.2.1, t.2.2⟩)), f.updatedAt⟩

/-- Embeds `func (h *WorktreeHistory) Save() error`: refreshes `UpdatedAt` to
the current time (`now`) and rewrites the whole file, ignoring any previous
disk contents. -/
def SaveHistory (h : WorktreeHistory) (now : Nat) (_disk : Option HistoryFile) :
    Option HistoryFile :=
  some (encodeHistory { h with updatedAt := now })

/-- Embeds `func LoadHistory() (*WorktreeHistory, error)`: an absent file
yields an empty history. -/
def LoadHistory (disk : Option HistoryFile) : WorktreeHistory :=
  match disk with
  | none => ⟨[], 0⟩
  | some f => decodeHistory f

theorem decodeHistory_encodeHistory (h : WorktreeHistory) :
    decodeHistory (encodeHistory h) = h := by
  obtain ⟨m, t⟩ := h
  unfold encodeHistory decodeHistory
  simp only [List.map_map, WorktreeHistory.mk.injEq, and_true]
  induction m with
  | nil => rfl
  | cons p rest ih =>
    obtain ⟨a, prev, cur⟩ := p
    simpa using ih

/-! ### String helpers mirroring Go's path and strings packages

These are written over `List Char` by structural recursion so that every
concrete evaluation reduces in the kernel. -/

/-- Splits a character list on a separator character (no separator collapse),
mirroring the segment structure `strings.Split`-style functions rely on. -/
def splitOnChar (c : Char) : List Char → List (List Char)
  | [] => [[]]
  | x :: xs =>
    match splitOnChar c xs with
    | [] => if x = c then [[], []] else [[x]]
    | y :: ys => if x = c then [] :: y :: ys else (x :: y) :: ys

/-- Models Go `filepath.Base` (on slash-separated paths): the last non-empty
path segment, with the Go conventions for the empty path and the root. -/
def baseName (p : String) : String :=
  if p = "" then "."
  else
    match ((splitOnChar '/' p.toList).map (fun l => String.mk l)).reverse.find?
        (fun s => !s.isEmpty) with
    | some s => s
    | none => "/"

/-- Decides whether `sub` is a prefix of the second list. -/
def listIsPrefix : List Char → List Char → Bool
  | [], _ => true
  | _ :: _, [] => false
  | a :: as, b :: bs => a == b && listIsPrefix as bs

/-- Decides whether `sub` occurs inside the second list. -/
def listContainsSub (sub : List Char) : List Char → Bool
  | [] => sub.isEmpty
  | x :: xs => listIsPrefix sub (x :: xs) || listContainsSub sub xs

/-- Models Go `strings.Contains s sub`. -/
def containsSubstr (s sub : String) : Bool :=
  listContainsSub sub.toList s.toList

/-- Models Go `strings.TrimSpace`. -/
def trimStr (s : String) : String :=
  String.mk (((s.toList.dropWhile Char.isWhitespace).reverse.dropWhile
    Char.isWhitespace).reverse)

/-- Models Go `strings.HasSuffix s suffix` via reversed prefix testing. -/
def endsWithStr (s suffix : String) : Bool :=
  listIsPrefix suffix.toList.reverse s.toList.reverse

/-! ### Worktrees and name resolution (src/cmd/worktree.go) -/

/-- Mirrors Go `type Worktree struct` from internal/git. -/
structure Worktree where
  path : String
  head : String
  branch : String
  bare : Bool
deriving DecidableEq

/-- The secondary-worktree filter used by go, use and finish: not bare, and
the path contains the separator-delimited base directory `.worktrees`. -/
def secondaryWorktrees (wts : List Worktree) : List Worktree :=
  wts.filter (fun wt => !wt.bare && containsSubstr wt.path "/.worktrees/")

/-- Embeds the resolution loop shared by runWorktreeGo, runWorktreeUse and
runWorktreeFinish: a single pass over the (secondary) worktree list returning
the first entry whose path basename or branch equals the name. -/
def resolveWorktree : List Worktree → String → Option Worktree
  | [], _ => none
  | wt :: rest, name =>
    if baseName wt.path = name || wt.branch = name then some wt
    else resolveWorktree rest name

/-- Resolver as the specification's words in section 4.3 describe it (three
ordered rules, the third a suffix-glob `*-token` on the basename) — written
from the spec, for comparison against `resolveWorktree` only. The glob match
is modelled for metacharacter-free tokens, where `filepath.Match`
of the pattern `*-token` against a basename is exactly a suffix test. -/
def specResolveWorktree (wts : List Worktree) (name : String) : Option Worktree :=
  match wts.find? (fun wt => baseName wt.path == name) with
  | some wt => some wt
  | none =>
    match wts.find? (fun wt => wt.branch == name) with
    | some wt => some wt
    | none => wts.find? (fun wt => endsWithStr (baseName wt.path) ("-" ++ name))

/-! ### Git-side state (src/internal/git/git.go)

The parts of the git world that the navigation core reads and writes:
the repo-local state files inside the git directory, the current branch,
the stash stack and the dirtiness of the working tree. Checkout failure is
modelled by a set of branches on which `git checkout` fails; writing and
removing the tiny state files is modelled as always succeeding (the
corresponding Go error branches are I/O failures outside this model). -/

/-- Go constant `statePreviousBranch`. -/
def statePreviousBranch : String := "LAZYWORK_PREVIOUS_BRANCH"

/-- Go constant `stateStashRef`. -/
def stateStashRef : String := "LAZYWORK_STASH_REF"

/-- The stash reference Go's `Stash` reports (the head of `git stash list`). -/
def stashRefName : String := "stash@\x7b0\x7d"

/-- World state seen by the worktree commands. -/
structure GitState where
  insideWorkTree : Bool
  mainWorktree : Bool
  currentBranch : String
  dirty : Bool
  stashes : List String
  files : List (String × String)
  checkoutFails : List String
  worktrees : List Worktree
deriving DecidableEq

/-- Embeds `func SaveState(key, value string) error` (file write). -/
def SaveState (gs : GitState) (key value : String) : GitState :=
  { gs with files := alInsert gs.files key value }

/-- Embeds `func LoadState(key string) (string, error)`: reads the file and
trims whitespace; a missing file is `none`. -/
def LoadState (gs : GitState) (key : String) : Option String :=
  (alFind gs.files key).map trimStr

/-- Embeds `func ClearState(key string) error` (removal; missing file is ok). -/
def ClearState (gs : GitState) (key : String) : GitState :=
  { gs with files := alErase gs.files key }

/-- Embeds `func HasSavedState() bool`: true exactly when the previous-branch
state file is readable. -/
def hasSavedState (gs : GitState) : Bool :=
  (LoadState gs statePreviousBranch).isSome

/-- Embeds `func SaveUseState(previousBranch, stashRef string) error`: always
writes the previous-branch file, and the stash-ref file only when nonempty. -/
def saveUseState (gs : GitState) (previousBranch stashRef : String) : GitState :=
  let gs1 := SaveState gs statePreviousBranch previousBranch
  if stashRef ≠ "" then SaveState gs1 stateStashRef stashRef else gs1

/-- Embeds `func LoadUseState() (previousBranch, stashRef string, err error)`:
fails only when the previous-branch file is missing; a missing stash-ref file
yields the empty string. -/
def loadUseState (gs : GitState) : Option (String × String) :=
  match LoadState gs statePreviousBranch with
  | none => none
  | some pb => some (pb, (LoadState gs stateStashRef).getD "")

/-- Embeds `func ClearUseState() error`: removes both state files. -/
def clearUseState (gs : GitState) : GitState :=
  ClearState (ClearState gs statePreviousBranch) stateStashRef

/-- Embeds `func Stash(message string) (string, error)`: moves the dirty
changes onto the stash stack and reports the head stash reference. -/
def stashPush (gs : GitState) : GitState :=
  { gs with dirty := false, stashes := stashRefName :: gs.stashes }

/-- Embeds `func StashPop() error`: restores the most recent stash into the
working tree (a no-op here when the stash stack is empty, where Go reports an
error that the callers in the rollback paths ignore). -/
def stashPop (gs : GitState) : GitState :=
  match gs.stashes with
  | [] => gs
  | _ :: rest => { gs with dirty := true, stashes := rest }

/-- Embeds a successful `func Checkout(branch string) error`. -/
def checkout (gs : GitState) (branch : String) : GitState :=
  { gs with currentBranch := branch }

/-! ### The worktree commands (src/cmd/worktree.go) -/

/-- Stable machine error codes passed to `out.ErrorResult` by the commands. -/
inductive ErrCode where
  | NOT_GIT_REPO
  | NOT_MAIN_WORKTREE
  | STATE_EXISTS
  | NO_WORKTREES
  | NAME_REQUIRED
  | WORKTREE_NOT_FOUND
  | DETACHED_HEAD
  | CANCELLED
  | UNCOMMITTED_CHANGES
  | CHECKOUT_ERROR
  | NO_STATE
  | NO_PREVIOUS
deriving DecidableEq

/-- Result of a command run: success, or an error with its machine code. -/
inductive CmdResult where
  | ok
  | err (code : ErrCode)
deriving DecidableEq

/-- One line of standard output. `cdLine p` is the bare `cd p` printed in
shell-helper mode; `jsonObj` is a JSON object rendered by `out.JSON`;
`info`/`dim` are the decorated human lines; `errJson` is the JSON error
object `out.ErrorResult` prints on stdout in JSON mode (in human mode the
error text goes to stderr, so no stdout line is recorded). -/
inductive OutLine where
  | cdLine (path : String)
  | jsonObj (fields : List (String × String))
  | info (msg : String)
  | dim (msg : String)
  | errJson (code : ErrCode)
deriving DecidableEq

/-- Stdout lines of `out.ErrorResult(err, code)`. -/
def errorResultOut (json : Bool) (code : ErrCode) : List OutLine :=
  if json then [.errJson code] else []

/-- Models `out.IsTTY()`: interactive exactly when attached to a terminal and
not in JSON mode. -/
def outIsTTY (isTTY json : Bool) : Bool :=
  isTTY && !json

/-- Name-argument handling shared by go and use: an explicit argument wins;
otherwise the interactive selector supplies `sel` when `out.IsTTY()`;
otherwise the command fails with NAME_REQUIRED. -/
def nameArg (arg : Option String) (isTTY json : Bool) (sel : String) : Option String :=
  match arg with
  | some name => some name
  | none => if outIsTTY isTTY json then some sel else none

/-- Predicate for "the entire stdout is exactly one bare cd line". -/
def isCdOnly : List OutLine → Bool
  | [OutLine.cdLine _] => true
  | _ => false

/-- Embeds `func runWorktreeGo(cmd, args)` (src/cmd/worktree.go). `arg` is the
optional positional argument, `sel` the choice the interactive selector would
return, `helper` the hidden `--shell-helper` flag. Returns the command result
and the stdout lines. Backend failures of `ListWorktrees` are outside the
model. -/
def runWorktreeGo (gs : GitState) (arg : Option String) (isTTY json helper : Bool)
    (sel : String) : CmdResult × List OutLine :=
  if !gs.insideWorkTree then (.err .NOT_GIT_REPO, errorResultOut json .NOT_GIT_REPO)
  else
    let secondaries := secondaryWorktrees gs.worktrees
    if secondaries.isEmpty then (.err .NO_WORKTREES, errorResultOut json .NO_WORKTREES)
    else
      match nameArg arg isTTY json sel with
      | none => (.err .NAME_REQUIRED, errorResultOut json .NAME_REQUIRED)
      | some name =>
        match resolveWorktree secondaries name with
        | none => (.err .WORKTREE_NOT_FOUND, errorResultOut json .WORKTREE_NOT_FOUND)
        | some wt =>
          if json then
            (.ok, [.jsonObj [("path", wt.path), ("cd", "cd " ++ wt.path)]])
          else if helper then
            (.ok, [.cdLine wt.path])
          else
            (.ok, [.info ("Run: cd " ++ wt.path),
                   .dim "Tip: Use 'lwt go' with shell integration for automatic cd",
                   .dim "Setup: eval \"$(lazywork shell init)\""])

/-- Embeds `func runWorktreeUse(cmd, args)` (src/cmd/worktree.go). `confirm`
is the answer the interactive stash-confirmation form would return. Output
rendering is not tracked for this command; the result code and the final git
state are. Stash and state-file write failures (Go's STASH_ERROR and
STATE_SAVE_ERROR paths) are I/O failures outside the model. -/
def runWorktreeUse (gs : GitState) (arg : Option String) (isTTY json confirm : Bool)
    (sel : String) : CmdResult × GitState :=
  if !gs.insideWorkTree then (.err .NOT_GIT_REPO, gs)
  else if !gs.mainWorktree then (.err .NOT_MAIN_WORKTREE, gs)
  else if hasSavedState gs then (.err .STATE_EXISTS, gs)
  else
    let secondaries := secondaryWorktrees gs.worktrees
    if secondaries.isEmpty then (.err .NO_WORKTREES, gs)
    else
      match nameArg arg isTTY json sel with
      | none => (.err .NAME_REQUIRED, gs)
      | some name =>
        match resolveWorktree secondaries name with
        | none => (.err .WORKTREE_NOT_FOUND, gs)
        | some wt =>
          if wt.branch = "" then (.err .DETACHED_HEAD, gs)
          else
            let dirtyStep : Except ErrCode (String × GitState) :=
              if gs.dirty then
                if outIsTTY isTTY json then
                  if !confirm then .error .CANCELLED
                  else .ok (stashRefName, stashPush gs)
                else if !json then .error .UNCOMMITTED_CHANGES
                else .ok (stashRefName, stashPush gs)
              else .ok ("", gs)
            match dirtyStep with
            | .error e => (.err e, gs)
            | .ok (stashRef, gs1) =>
              let gs2 := saveUseState gs1 gs.currentBranch stashRef
              if gs.checkoutFails.contains wt.branch then
                let gs3 := clearUseState gs2
                let gs4 := if stashRef ≠ "" then stashPop gs3 else gs3
                (.err .CHECKOUT_ERROR, gs4)
              else
                (.ok, checkout gs2 wt.branch)

/-! ### Navigation controller steps missing from the provided sources

The current repository's `navigateToWorktree` and `goToPreviousWorktree`
(exercised by src/cmd/worktree_test.go) are not among the provided source
files — only the tests that call them are. They are modelled here from the
specification's sections 4.1 and 4.4. -/

/-- Modelled from the spec: `navigateToWorktree`, the navigation step of `Go`
whose implementation is missing from the sources (src/cmd/worktree_test.go
calls it). Per spec sections 4.4 and 4.1: record the visit to the resolved
`target` under the RepoIdentity `repoKey` — applying the first-visit rule,
which captures the caller's current location `cwd` as `previous` when the
repository has no record yet — then hand the target path to the Shell Bridge
(the returned string). -/
def navigateToWorktree (h : WorktreeHistory) (repoKey cwd target : String) :
    WorktreeHistory × String :=
  let h1 := if GetCurrent h repoKey = "" then RecordVisit h repoKey cwd else h
  (RecordVisit h1 repoKey target, target)

/-- Modelled from the spec: `goToPreviousWorktree`, the `go --previous` step
whose implementation is missing from the sources (src/cmd/worktree_test.go
calls it). Per spec section 4.4: read `GetPrevious`; empty means a
NO_PREVIOUS error; otherwise treat the previous path exactly as a `Go`
target, including recording a new visit. -/
def goToPreviousWorktree (h : WorktreeHistory) (repoKey cwd : String) :
    Except ErrCode (WorktreeHistory × String) :=
  let prev := GetPrevious h repoKey
  if prev = "" then .error .NO_PREVIOUS
  else .ok (navigateToWorktree h repoKey cwd prev)

/-! ### Concrete fixtures used by witnesses and counterexamples -/

/-- A secondary worktree under the default `.worktrees` base directory. -/
def wtFeatureAuth : Worktree :=
  ⟨"/repo/.worktrees/feature-auth", "abc123", "feature-auth", false⟩

/-- A clean main-worktree state with one secondary worktree. -/
def gsDemo : GitState :=
  { insideWorkTree := true, mainWorktree := true, currentBranch := "main",
    dirty := false, stashes := [], files := [], checkoutFails := [],
    worktrees := [wtFeatureAuth] }

/-! ### Claim C2 — history depth is exactly two -/

/-- Claim C2, counterexample: the claim quantifies over any three paths, but
when the third visit repeats the second (B = C = "b"), `RecordVisit` is the
documented idempotent no-op, so `GetPrevious` stays "a" rather than the
claimed B = "b". -/
theorem recordVisit_depth_counterexample :
    GetPrevious (RecordVisit (RecordVisit (RecordVisit ⟨[], 0⟩ "r" "a") "r" "b") "r" "b")
      "r" = "a" ∧ ("a" : String) ≠ "b" := by
  constructor
  · rfl
  · decide

/-- Claim C2 (amended): for any starting store and any paths A, B, C with
B ≠ C, the visit sequence A, B, C leaves current = C and previous = B, and
the repository's whole record is exactly the pair (B, C) — nothing older is
kept. -/
theorem recordVisit_mru2 (h : WorktreeHistory) (r a b c : String) (hbc : b ≠ c) :
    GetCurrent (RecordVisit (RecordVisit (RecordVisit h r a) r b) r c) r = c ∧
    GetPrevious (RecordVisit (RecordVisit (RecordVisit h r a) r b) r c) r = b ∧
    lookupState (RecordVisit (RecordVisit (RecordVisit h r a) r b) r c).repoHistory r =
      ⟨b, c⟩ := by
  have hcur2 : GetCurrent (RecordVisit (RecordVisit h r a) r b) r = b :=
    GetCurrent_RecordVisit _ _ _
  have hne : (lookupState (RecordVisit (RecordVisit h r a) r b).repoHistory r).current ≠ c := by
    rw [show (lookupState (RecordVisit (RecordVisit h r a) r b).repoHistory r).current =
      GetCurrent (RecordVisit (RecordVisit h r a) r b) r from rfl, hcur2]
    exact hbc
  refine ⟨GetCurrent_RecordVisit _ _ _, ?_, ?_⟩
  · rw [GetPrevious_RecordVisit_ne _ _ _ hne, hcur2]
  · rw [lookupState_RecordVisit_ne _ _ _ hne]
    rw [show (lookupState (RecordVisit (RecordVisit h r a) r b).repoHistory r).current =
      GetCurrent (RecordVisit (RecordVisit h r a) r b) r from rfl, hcur2]

/-- Claim C2, witness: the amended statement at the distinct paths a, b, c on
the empty store. -/
theorem recordVisit_mru2_witness :
    GetCurrent (RecordVisit (RecordVisit (RecordVisit ⟨[], 0⟩ "r" "a") "r" "b") "r" "c")
      "r" = "c" ∧
    GetPrevious (RecordVisit (RecordVisit (RecordVisit ⟨[], 0⟩ "r" "a") "r" "b") "r" "c")
      "r" = "b" ∧
    lookupState
      (RecordVisit (RecordVisit (RecordVisit ⟨[], 0⟩ "r" "a") "r" "b") "r" "c").repoHistory
      "r" = ⟨"b", "c"⟩ :=
  recordVisit_mru2 ⟨[], 0⟩ "r" "a" "b" "c" (by decide)

/-! ### Claim C9 — save/load round-trip fidelity -/

/-- Claim C9: saving any history store and reloading it preserves
`GetCurrent` and `GetPrevious` for every repository; `Save` stamps the store
with the current time and rewrites the whole file regardless of what was on
disk before. -/
theorem history_save_load_roundtrip (h : WorktreeHistory) (now : Nat)
    (disk disk' : Option HistoryFile) (r : String) :
    GetCurrent (LoadHistory (SaveHistory h now disk)) r = GetCurrent h r ∧
    GetPrevious (LoadHistory (SaveHistory h now disk)) r = GetPrevious h r ∧
    (LoadHistory (SaveHistory h now disk)).updatedAt = now ∧
    SaveHistory h now disk = SaveHistory h now disk' := by
  simp only [SaveHistory, LoadHistory]
  rw [decodeHistory_encodeHistory]
  exact ⟨rfl, rfl, rfl, by trivial⟩

/-! ### Claim C10 — Active/Idle is decided by the previous-branch file alone -/

/-- Claim C10: `hasSavedState` is true exactly when the previous-branch file
is present; a leftover stash-ref file alone leaves the session Idle (and
`loadUseState` fails); when only the previous-branch file exists,
`loadUseState` succeeds with an empty stash reference. -/
theorem hasSavedState_previous_branch_only (gs : GitState) (v : String) :
    (hasSavedState gs = (alFind gs.files statePreviousBranch).isSome) ∧
    (alFind gs.files statePreviousBranch = none →
      hasSavedState gs = false ∧ loadUseState gs = none) ∧
    (alFind gs.files statePreviousBranch = some v →
      hasSavedState gs = true ∧
      (alFind gs.files stateStashRef = none → loadUseState gs = some (trimStr v, ""))) := by
  unfold hasSavedState loadUseState LoadState
  refine ⟨?_, ?_, ?_⟩
  · cases alFind gs.files statePreviousBranch <;> simp
  · intro hnone
    simp [hnone]
  · intro hsome
    refine ⟨by simp [hsome], ?_⟩
    intro hstash
    simp [hsome, hstash]

/-- Claim C10, witness: a git directory holding only a leftover stash-ref
file is Idle, and one holding only the previous-branch file loads with an
empty stash reference. -/
theorem hasSavedState_previous_branch_only_witness :
    hasSavedState
      { insideWorkTree := true, mainWorktree := true, currentBranch := "main",
        dirty := false, stashes := [], files := [(stateStashRef, "stash@\x7b0\x7d")],
        checkoutFails := [], worktrees := [] } = false ∧
    loadUseState
      { insideWorkTree := true, mainWorktree := true, currentBranch := "main",
        dirty := false, stashes := [], files := [(statePreviousBranch, "main")],
        checkoutFails := [], worktrees := [] } = some ("main", "") := by
  constructor
  · exact ((hasSavedState_previous_branch_only
      { insideWorkTree := true, mainWorktree := true, currentBranch := "main",
        dirty := false, stashes := [], files := [(stateStashRef, "stash@\x7b0\x7d")],
        checkoutFails := [], worktrees := [] } "x").2.1 (by decide)).1
  · have h := ((hasSavedState_previous_branch_only
      { insideWorkTree := true, mainWorktree := true, currentBranch := "main",
        dirty := false, stashes := [], files := [(statePreviousBranch, "main")],
        checkoutFails := [], worktrees := [] } "main").2.2 (by decide)).2 (by decide)
    simpa using h

/-! ### Claim C7 — Use preconditions fail fast without mutation -/

/-- Claim C7: inside a repository, `Use` while a session is Active fails with
STATE_EXISTS, and `Use` outside the main worktree fails with
NOT_MAIN_WORKTREE; in both cases the returned state is exactly the input
state — no branch change, no stash, no file write. -/
theorem use_preconditions_no_mutation (gs : GitState) (arg : Option String)
    (isTTY json confirm : Bool) (sel : String) :
    (gs.insideWorkTree = true → gs.mainWorktree = true → hasSavedState gs = true →
      runWorktreeUse gs arg isTTY json confirm sel = (.err .STATE_EXISTS, gs)) ∧
    (gs.insideWorkTree = true → gs.mainWorktree = false →
      runWorktreeUse gs arg isTTY json confirm sel = (.err .NOT_MAIN_WORKTREE, gs)) := by
  constructor
  · intro h1 h2 h3
    simp [runWorktreeUse, h1, h2, h3]
  · intro h1 h2
    simp [runWorktreeUse, h1, h2]

/-- Claim C7, witness: both precondition failures at concrete states. -/
theorem use_preconditions_no_mutation_witness :
    runWorktreeUse
      { gsDemo with files := [(statePreviousBranch, "main")] }
      (some "feature-auth") false false false "" =
      (.err .STATE_EXISTS, { gsDemo with files := [(statePreviousBranch, "main")] }) ∧
    runWorktreeUse { gsDemo with mainWorktree := false }
      (some "feature-auth") false false false "" =
      (.err .NOT_MAIN_WORKTREE, { gsDemo with mainWorktree := false }) :=
  ⟨(use_preconditions_no_mutation { gsDemo with files := [(statePreviousBranch, "main")] }
      (some "feature-auth") false false false "").1 (by decide) (by decide) (by decide),
   (use_preconditions_no_mutation { gsDemo with mainWorktree := false }
      (some "feature-auth") false false false "").2 (by decide) (by decide)⟩

/-! ### Claim C6 — dirty Use, non-interactive -/

/-- Claim C6, counterexample: a non-interactive (no terminal) `Use` in JSON
mode on a dirty tree does not fail with UNCOMMITTED_CHANGES — the
`else if !jsonOutput` guard lets JSON mode fall through, so the command
auto-stashes and checks the branch out. -/
theorem use_dirty_json_counterexample :
    (runWorktreeUse { gsDemo with dirty := true } (some "feature-auth")
        false true false "").1 ≠ .err .UNCOMMITTED_CHANGES ∧
    (runWorktreeUse { gsDemo with dirty := true } (some "feature-auth")
        false true false "").2.stashes ≠ ({ gsDemo with dirty := true } : GitState).stashes ∧
    (runWorktreeUse { gsDemo with dirty := true } (some "feature-auth")
        false true false "").2.currentBranch ≠
      ({ gsDemo with dirty := true } : GitState).currentBranch := by
  refine ⟨?_, ?_, ?_⟩ <;> decide

/-- Claim C6 (amended): a non-interactive, non-JSON `Use` on a dirty working
tree fails with UNCOMMITTED_CHANGES and the state is untouched — no stash,
no session-state write, no checkout. (In JSON mode the code auto-stashes
instead.) -/
theorem use_dirty_noninteractive (gs : GitState) (name : String) (wt : Worktree)
    (confirm : Bool) (sel : String)
    (hIn : gs.insideWorkTree = true) (hMain : gs.mainWorktree = true)
    (hIdle : hasSavedState gs = false)
    (hRes : resolveWorktree (secondaryWorktrees gs.worktrees) name = some wt)
    (hBr : wt.branch ≠ "") (hDirty : gs.dirty = true) :
    runWorktreeUse gs (some name) false false confirm sel =
      (.err .UNCOMMITTED_CHANGES, gs) := by
  have hne : (secondaryWorktrees gs.worktrees).isEmpty = false := by
    cases hl : secondaryWorktrees gs.worktrees with
    | nil => rw [hl] at hRes; simp [resolveWorktree] at hRes
    | cons a l => simp
  simp [runWorktreeUse, hIn, hMain, hIdle, hne, nameArg, outIsTTY, hRes, hBr, hDirty]

/-- Claim C6, witness: the amended statement at a concrete dirty state. -/
theorem use_dirty_noninteractive_witness :
    runWorktreeUse { gsDemo with dirty := true } (some "feature-auth") false false false "" =
      (.err .UNCOMMITTED_CHANGES, { gsDemo with dirty := true }) :=
  use_dirty_noninteractive { gsDemo with dirty := true } "feature-auth" wtFeatureAuth
    false "" (by decide) (by decide) (by decide) (by decide) (by decide) (by decide)

/-! ### Claim C5 — worktree name resolution -/

/-- Claim C5, counterexample: the claim's third rule (suffix glob `*-token`
on the basename) does not exist in the resolution used by go, use and
finish. For the worktree based at `feature-auth`, the token `auth` matches
under the spec's rules (the spec-side resolver finds it) but the code
resolves nothing and `go` fails with WORKTREE_NOT_FOUND. -/
theorem resolveWorktree_glob_counterexample :
    resolveWorktree [wtFeatureAuth] "auth" = none ∧
    specResolveWorktree [wtFeatureAuth] "auth" = some wtFeatureAuth ∧
    (runWorktreeGo gsDemo (some "auth") false false false "").1 =
      .err .WORKTREE_NOT_FOUND := by
  refine ⟨?_, ?_, ?_⟩ <;> decide

/-- Claim C5 (amended): resolution is a single ordered pass over the
worktree list — the first worktree whose path basename or branch name equals
the token wins (there is no suffix-glob rule) — and when no worktree
matches, `go` fails with WORKTREE_NOT_FOUND. -/
theorem resolveWorktree_first_match (wts : List Worktree) (name : String) :
    (∀ wt, resolveWorktree wts name = some wt →
      (baseName wt.path = name ∨ wt.branch = name) ∧
      ∃ pre post, wts = pre ++ wt :: post ∧
        ∀ w ∈ pre, baseName w.path ≠ name ∧ w.branch ≠ name) ∧
    (resolveWorktree wts name = none ↔
      ∀ w ∈ wts, baseName w.path ≠ name ∧ w.branch ≠ name) ∧
    (∀ gs : GitState, ∀ isTTY helper : Bool, ∀ sel : String,
      gs.insideWorkTree = true →
      wts = secondaryWorktrees gs.worktrees →
      (secondaryWorktrees gs.worktrees).isEmpty = false →
      resolveWorktree wts name = none →
      (runWorktreeGo gs (some name) isTTY false helper sel).1 =
        .err .WORKTREE_NOT_FOUND) := by
  refine ⟨?_, ?_, ?_⟩
  · induction wts with
    | nil => intro wt hwt; simp [resolveWorktree] at hwt
    | cons a rest ih =>
      intro wt hwt
      by_cases ha : baseName a.path = name ∨ a.branch = name
      · rw [resolveWorktree, if_pos (by simpa using ha)] at hwt
        obtain rfl : a = wt := by injection hwt
        exact ⟨ha, [], rest, rfl, by simp⟩
      · rw [resolveWorktree, if_neg (by simpa using ha)] at hwt
        obtain ⟨hm, pre, post, hsplit, hpre⟩ := ih wt hwt
        push_neg at ha
        refine ⟨hm, a :: pre, post, by rw [hsplit]; rfl, ?_⟩
        intro w hw
        rcases List.mem_cons.mp hw with rfl | hw'
        · exact ha
        · exact hpre w hw'
  · induction wts with
    | nil => simp [resolveWorktree]
    | cons a rest ih =>
      by_cases ha : baseName a.path = name ∨ a.branch = name
      · rw [resolveWorktree, if_pos (by simpa using ha)]
        constructor
        · intro hcontra; exact absurd hcontra (by simp)
        · intro hall
          have := hall a (by simp)
          rcases ha with ha | ha
          · exact absurd ha this.1
          · exact absurd ha this.2
      · rw [resolveWorktree, if_neg (by simpa using ha)]
        push_neg at ha
        rw [ih]
        constructor
        · intro hall w hw
          rcases List.mem_cons.mp hw with rfl | hw'
          · exact ha
          · exact hall w hw'
        · intro hall w hw
          exact hall w (List.mem_cons_of_mem a hw)
  · intro gs isTTY helper sel hIn hwts hne hnone
    subst hwts
    simp [runWorktreeGo, hIn, hne, nameArg, hnone]

/-- Claim C5, witness: the amended statement applied where the second listed
worktree is the first one whose branch matches, and where an unmatched token
makes `go` fail with WORKTREE_NOT_FOUND. -/
theorem resolveWorktree_first_match_witness :
    ((baseName wtFeatureAuth.path = "feature-auth" ∨ wtFeatureAuth.branch = "feature-auth") ∧
      ∃ pre post,
        [⟨"/repo/.worktrees/bugfix-login", "def456", "bugfix-login", false⟩, wtFeatureAuth] =
          pre ++ wtFeatureAuth :: post ∧
        ∀ w ∈ pre, baseName w.path ≠ "feature-auth" ∧ w.branch ≠ "feature-auth") ∧
    (runWorktreeGo gsDemo (some "nope") false false false "").1 = .err .WORKTREE_NOT_FOUND := by
  constructor
  · exact (resolveWorktree_first_match
      [⟨"/repo/.worktrees/bugfix-login", "def456", "bugfix-login", false⟩, wtFeatureAuth]
      "feature-auth").1 wtFeatureAuth (by decide)
  · exact (resolveWorktree_first_match (secondaryWorktrees gsDemo.worktrees) "nope").2.2
      gsDemo false false "" (by decide) rfl (by decide) (by decide)

/-! ### Claim C8 — helper-mode stdout -/

/-- Claim C8, counterexample: with both the hidden helper flag and JSON mode
set, a successful navigation prints the JSON object (the `jsonOutput` check
comes first in runWorktreeGo), not a single bare cd line — so "helper flag
set" alone does not guarantee the one-line cd output. -/
theorem go_helper_json_counterexample :
    (runWorktreeGo gsDemo (some "feature-auth") false true true "").1 = .ok ∧
    isCdOnly (runWorktreeGo gsDemo (some "feature-auth") false true true "").2 = false := by
  refine ⟨?_, ?_⟩ <;> decide

/-- Claim C8 (amended): with the helper flag set and JSON mode off, every
successful navigation prints exactly one line `cd <path>` for the resolved
worktree's path, and nothing else, on stdout. -/
theorem go_helper_single_cd (gs : GitState) (arg : Option String) (isTTY : Bool)
    (sel : String)
    (h : (runWorktreeGo gs arg isTTY false true sel).1 = .ok) :
    ∃ name wt, nameArg arg isTTY false sel = some name ∧
      resolveWorktree (secondaryWorktrees gs.worktrees) name = some wt ∧
      (runWorktreeGo gs arg isTTY false true sel).2 = [OutLine.cdLine wt.path] := by
  cases hin : gs.insideWorkTree with
  | false => exfalso; simp [runWorktreeGo, hin] at h
  | true =>
    cases hemp : (secondaryWorktrees gs.worktrees).isEmpty with
    | true => exfalso; simp [runWorktreeGo, hin, hemp] at h
    | false =>
      cases hn : nameArg arg isTTY false sel with
      | none => exfalso; simp [runWorktreeGo, hin, hemp, hn] at h
      | some name =>
        cases hr : resolveWorktree (secondaryWorktrees gs.worktrees) name with
        | none => exfalso; simp [runWorktreeGo, hin, hemp, hn, hr] at h
        | some wt =>
          exact ⟨name, wt, rfl, hr, by simp [runWorktreeGo, hin, hemp, hn, hr]⟩

/-- Claim C8, witness: the amended statement at a concrete helper-mode run. -/
theorem go_helper_single_cd_witness :
    ∃ name wt, nameArg (some "feature-auth") false false "" = some name ∧
      resolveWorktree (secondaryWorktrees gsDemo.worktrees) name = some wt ∧
      (runWorktreeGo gsDemo (some "feature-auth") false false true "").2 =
        [OutLine.cdLine wt.path] :=
  go_helper_single_cd gsDemo (some "feature-auth") false "" (by decide)

/-! ### Claim C1 — Use rolls back when checkout fails -/

/-- Rollback arithmetic for a clean working tree: persisting only the
previous branch and then clearing both state files leaves the session files
absent and touches neither the stash stack, the dirty flag nor the branch. -/
theorem rollback_clean (gs : GitState) (pb : String) :
    LoadState (clearUseState (saveUseState gs pb "")) statePreviousBranch = none ∧
    LoadState (clearUseState (saveUseState gs pb "")) stateStashRef = none ∧
    (clearUseState (saveUseState gs pb "")).stashes = gs.stashes ∧
    (clearUseState (saveUseState gs pb "")).dirty = gs.dirty ∧
    (clearUseState (saveUseState gs pb "")).currentBranch = gs.currentBranch := by
  have hps : (statePreviousBranch = stateStashRef) = False := by
    simp [statePreviousBranch, stateStashRef]
  unfold clearUseState saveUseState SaveState ClearState LoadState
  simp [alFind_alErase, hps]

/-- Rollback arithmetic after an auto-stash: stashing, persisting both state
files, clearing them and popping the stash restores the stash stack and the
dirty working tree, with the session files absent. -/
theorem rollback_stashed (gs : GitState) (pb : String) (hd : gs.dirty = true) :
    LoadState (stashPop (clearUseState (saveUseState (stashPush gs) pb stashRefName)))
      statePreviousBranch = none ∧
    LoadState (stashPop (clearUseState (saveUseState (stashPush gs) pb stashRefName)))
      stateStashRef = none ∧
    (stashPop (clearUseState (saveUseState (stashPush gs) pb stashRefName))).stashes =
      gs.stashes ∧
    (stashPop (clearUseState (saveUseState (stashPush gs) pb stashRefName))).dirty =
      gs.dirty ∧
    (stashPop (clearUseState (saveUseState (stashPush gs) pb stashRefName))).currentBranch =
      gs.currentBranch := by
  have hps : (statePreviousBranch = stateStashRef) = False := by
    simp [statePreviousBranch, stateStashRef]
  have hsr : (stashRefName = "") = False := by simp [stashRefName]
  unfold clearUseState saveUseState SaveState ClearState LoadState stashPush stashPop
  simp [alFind_alErase, hps, hsr, hd]

/-- Claim C1: whenever `Use` surfaces CHECKOUT_ERROR, the final state has no
session files (the previous-branch and stash-ref files are absent, so the
session is Idle), the stash stack and the dirty flag are back to their
initial values (any created stash was popped), and the branch is unchanged —
the store is never left Active for a branch that was never entered. -/
theorem use_checkout_rollback (gs : GitState) (arg : Option String)
    (isTTY json confirm : Bool) (sel : String) (gs' : GitState)
    (h : runWorktreeUse gs arg isTTY json confirm sel = (.err .CHECKOUT_ERROR, gs')) :
    LoadState gs' statePreviousBranch = none ∧
    LoadState gs' stateStashRef = none ∧
    hasSavedState gs' = false ∧
    gs'.stashes = gs.stashes ∧
    gs'.dirty = gs.dirty ∧
    gs'.currentBranch = gs.currentBranch := by
  cases hin : gs.insideWorkTree with
  | false => exfalso; simp [runWorktreeUse, hin] at h
  | true =>
  cases hmain : gs.mainWorktree with
  | false => exfalso; simp [runWorktreeUse, hin, hmain] at h
  | true =>
  cases hsaved : hasSavedState gs with
  | true => exfalso; simp [runWorktreeUse, hin, hmain, hsaved] at h
  | false =>
  cases hemp : (secondaryWorktrees gs.worktrees).isEmpty with
  | true => exfalso; simp [runWorktreeUse, hin, hmain, hsaved, hemp] at h
  | false =>
  cases hn : nameArg arg isTTY json sel with
  | none => exfalso; simp [runWorktreeUse, hin, hmain, hsaved, hemp, hn] at h
  | some name =>
  cases hr : resolveWorktree (secondaryWorktrees gs.worktrees) name with
  | none => exfalso; simp [runWorktreeUse, hin, hmain, hsaved, hemp, hn, hr] at h
  | some wt =>
  by_cases hbr : wt.branch = ""
  · exfalso; simp [runWorktreeUse, hin, hmain, hsaved, hemp, hn, hr, hbr] at h
  · by_cases hfail : wt.branch ∈ gs.checkoutFails
    case neg =>
      exfalso
      cases hd : gs.dirty with
      | false => simp [runWorktreeUse, hin, hmain, hsaved, hemp, hn, hr, hbr, hd, hfail] at h
      | true =>
        cases htty : outIsTTY isTTY json with
        | true =>
          cases hc : confirm with
          | false =>
            simp [runWorktreeUse, hin, hmain, hsaved, hemp, hn, hr, hbr, hd, htty, hc] at h
          | true =>
            simp [runWorktreeUse, hin, hmain, hsaved, hemp, hn, hr, hbr, hd, htty, hc,
              hfail] at h
        | false =>
          cases hj : json with
          | false =>
            subst hj
            simp [runWorktreeUse, hin, hmain, hsaved, hemp, hn, hr, hbr, hd, htty] at h
          | true =>
            subst hj
            simp [runWorktreeUse, hin, hmain, hsaved, hemp, hn, hr, hbr, hd, htty,
              hfail] at h
    case pos =>
      cases hd : gs.dirty with
      | false =>
        have hgs : gs' = clearUseState (saveUseState gs gs.currentBranch "") := by
          simp [runWorktreeUse, hin, hmain, hsaved, hemp, hn, hr, hbr, hd, hfail] at h
          exact h.symm
        obtain ⟨h1, h2, h3, h4, h5⟩ := rollback_clean gs gs.currentBranch
        rw [hgs]
        exact ⟨h1, h2, by simp [hasSavedState, h1], h3, h4.trans hd, h5⟩
      | true =>
        have hstep : ∀ gsx : GitState, gsx =
            stashPop (clearUseState (saveUseState (stashPush gs) gs.currentBranch
              stashRefName)) →
            LoadState gsx statePreviousBranch = none ∧
            LoadState gsx stateStashRef = none ∧
            hasSavedState gsx = false ∧
            gsx.stashes = gs.stashes ∧ gsx.dirty = true ∧
            gsx.currentBranch = gs.currentBranch := by
          intro gsx hx
          obtain ⟨h1, h2, h3, h4, h5⟩ := rollback_stashed gs gs.currentBranch hd
          rw [hx]
          exact ⟨h1, h2, by simp [hasSavedState, h1], h3, h4.trans hd, h5⟩
        cases htty : outIsTTY isTTY json with
        | true =>
          cases hc : confirm with
          | false =>
            exfalso
            simp [runWorktreeUse, hin, hmain, hsaved, hemp, hn, hr, hbr, hd, htty, hc] at h
          | true =>
            refine hstep gs' ?_
            have hsr : (stashRefName = "") = False := by simp [stashRefName]
            simp [runWorktreeUse, hin, hmain, hsaved, hemp, hn, hr, hbr, hd, htty, hc,
              hfail, hsr] at h
            exact h.symm
        | false =>
          cases hj : json with
          | false =>
            exfalso
            subst hj
            simp [runWorktreeUse, hin, hmain, hsaved, hemp, hn, hr, hbr, hd, htty] at h
          | true =>
            refine hstep gs' ?_
            have hsr : (stashRefName = "") = False := by simp [stashRefName]
            subst hj
            simp [runWorktreeUse, hin, hmain, hsaved, hemp, hn, hr, hbr, hd, htty,
              hfail, hsr] at h
            exact h.symm

/-- Claim C1, witness: a concrete run where checkout of the target branch
fails, showing the rollback conclusions at that run's final state. -/
theorem use_checkout_rollback_witness :
    hasSavedState (runWorktreeUse { gsDemo with checkoutFails := ["feature-auth"] }
      (some "feature-auth") false false false "").2 = false ∧
    (runWorktreeUse { gsDemo with checkoutFails := ["feature-auth"] }
      (some "feature-auth") false false false "").2.stashes =
      ({ gsDemo with checkoutFails := ["feature-auth"] } : GitState).stashes := by
  have h := use_checkout_rollback { gsDemo with checkoutFails := ["feature-auth"] }
    (some "feature-auth") false false false ""
    (runWorktreeUse { gsDemo with checkoutFails := ["feature-auth"] }
      (some "feature-auth") false false false "").2 (by decide)
  exact ⟨h.2.2.1, h.2.2.2.1⟩

/-! ### Claim C4 — Go records the visit before handing off to the bridge -/

/-- Claim C4: every successful navigation hands the resolved target path to
the Shell Bridge with the visit already recorded under the repository key
(so `GetCurrent` equals the target afterwards), and on a repository with no
record yet the caller's current location is captured as `previous` first. -/
theorem navigate_records_before_bridge (h : WorktreeHistory)
    (repoKey cwd target : String) :
    (navigateToWorktree h repoKey cwd target).2 = target ∧
    GetCurrent (navigateToWorktree h repoKey cwd target).1 repoKey = target ∧
    (GetCurrent h repoKey = "" → cwd ≠ "" → target ≠ cwd →
      GetPrevious (navigateToWorktree h repoKey cwd target).1 repoKey = cwd) := by
  refine ⟨rfl, GetCurrent_RecordVisit _ _ _, ?_⟩
  intro h0 hcwd htc
  have hstep : (navigateToWorktree h repoKey cwd target).1 =
      RecordVisit (RecordVisit h repoKey cwd) repoKey target := by
    unfold navigateToWorktree
    rw [if_pos h0]
  rw [hstep]
  have hc1 : GetCurrent (RecordVisit h repoKey cwd) repoKey = cwd :=
    GetCurrent_RecordVisit _ _ _
  have hne : (lookupState (RecordVisit h repoKey cwd).repoHistory repoKey).current ≠
      target := by
    rw [show (lookupState (RecordVisit h repoKey cwd).repoHistory repoKey).current =
      GetCurrent (RecordVisit h repoKey cwd) repoKey from rfl, hc1]
    exact fun e => htc e.symm
  rw [GetPrevious_RecordVisit_ne _ _ _ hne, hc1]

/-- Claim C4, witness: a first navigation from the main checkout records the
origin as previous and the target as current, and hands the target over. -/
theorem navigate_records_before_bridge_witness :
    (navigateToWorktree ⟨[], 0⟩ "/repo/.git" "/repo" "/repo/.worktrees/feature-a").2 =
      "/repo/.worktrees/feature-a" ∧
    GetCurrent
      (navigateToWorktree ⟨[], 0⟩ "/repo/.git" "/repo" "/repo/.worktrees/feature-a").1
      "/repo/.git" = "/repo/.worktrees/feature-a" ∧
    GetPrevious
      (navigateToWorktree ⟨[], 0⟩ "/repo/.git" "/repo" "/repo/.worktrees/feature-a").1
      "/repo/.git" = "/repo" := by
  have h := navigate_records_before_bridge ⟨[], 0⟩ "/repo/.git" "/repo"
    "/repo/.worktrees/feature-a"
  exact ⟨h.1, h.2.1, h.2.2 (by decide) (by decide) (by decide)⟩

/-! ### Claim C3 — go-to-previous is an involution over the two-entry history -/

/-- Claim C3: from a recorded history with previous = A and current = B (both
nonempty), go-to-previous navigates to A and records the visit (current
becomes A, previous becomes B); invoking it again navigates back to B, so two
consecutive invocations return to the starting point. When `GetPrevious` is
empty the operation fails with NO_PREVIOUS. -/
theorem goPrevious_involution (h : WorktreeHistory) (repoKey a b cwd cwd2 : String)
    (hP : GetPrevious h repoKey = a) (hC : GetCurrent h repoKey = b)
    (ha : a ≠ "") (hb : b ≠ "") :
    (∃ h1, goToPreviousWorktree h repoKey cwd = .ok (h1, a) ∧
      GetCurrent h1 repoKey = a ∧ GetPrevious h1 repoKey = b ∧
      ∃ h2, goToPreviousWorktree h1 repoKey cwd2 = .ok (h2, b) ∧
        GetCurrent h2 repoKey = b ∧ GetPrevious h2 repoKey = a) ∧
    (∀ g : WorktreeHistory, ∀ k c : String, GetPrevious g k = "" →
      goToPreviousWorktree g k c = .error .NO_PREVIOUS) := by
  constructor
  · have hnav1 : goToPreviousWorktree h repoKey cwd = .ok (RecordVisit h repoKey a, a) := by
      unfold goToPreviousWorktree navigateToWorktree
      simp [hP, ha, hC, hb]
    have hc1 : GetCurrent (RecordVisit h repoKey a) repoKey = a :=
      GetCurrent_RecordVisit _ _ _
    have hp1 : GetPrevious (RecordVisit h repoKey a) repoKey = b := by
      by_cases hba : b = a
      · rw [RecordVisit_noop h repoKey a (by
          rw [show (lookupState h.repoHistory repoKey).current =
            GetCurrent h repoKey from rfl, hC, hba]), hP, hba]
      · rw [GetPrevious_RecordVisit_ne h repoKey a (by
          rw [show (lookupState h.repoHistory repoKey).current =
            GetCurrent h repoKey from rfl, hC]; exact hba), hC]
    have hnav2 : goToPreviousWorktree (RecordVisit h repoKey a) repoKey cwd2 =
        .ok (RecordVisit (RecordVisit h repoKey a) repoKey b, b) := by
      unfold goToPreviousWorktree navigateToWorktree
      simp [hp1, hb, hc1, ha]
    have hc2 : GetCurrent (RecordVisit (RecordVisit h repoKey a) repoKey b) repoKey = b :=
      GetCurrent_RecordVisit _ _ _
    have hp2 : GetPrevious (RecordVisit (RecordVisit h repoKey a) repoKey b) repoKey = a := by
      by_cases hab : a = b
      · rw [RecordVisit_noop (RecordVisit h repoKey a) repoKey b (by
          rw [show (lookupState (RecordVisit h repoKey a).repoHistory repoKey).current =
            GetCurrent (RecordVisit h repoKey a) repoKey from rfl, hc1, hab]), hp1, hab]
      · rw [GetPrevious_RecordVisit_ne (RecordVisit h repoKey a) repoKey b (by
          rw [show (lookupState (RecordVisit h repoKey a).repoHistory repoKey).current =
            GetCurrent (RecordVisit h repoKey a) repoKey from rfl, hc1]; exact hab), hc1]
    exact ⟨_, hnav1, hc1, hp1, _, hnav2, hc2, hp2⟩
  · intro g k c hzero
    unfold goToPreviousWorktree
    simp [hzero]

/-- Claim C3, witness: the involution at a concrete two-entry history built
by visiting /a then /b, and the NO_PREVIOUS failure on the empty store. -/
theorem goPrevious_involution_witness :
    (∃ h1, goToPreviousWorktree
        (RecordVisit (RecordVisit ⟨[], 0⟩ "k" "/a") "k" "/b") "k" "/cwd" = .ok (h1, "/a") ∧
      GetCurrent h1 "k" = "/a" ∧ GetPrevious h1 "k" = "/b" ∧
      ∃ h2, goToPreviousWorktree h1 "k" "/cwd2" = .ok (h2, "/b") ∧
        GetCurrent h2 "k" = "/b" ∧ GetPrevious h2 "k" = "/a") ∧
    goToPreviousWorktree ⟨[], 0⟩ "k" "/cwd" = .error .NO_PREVIOUS := by
  have h := goPrevious_involution (RecordVisit (RecordVisit ⟨[], 0⟩ "k" "/a") "k" "/b")
    "k" "/a" "/b" "/cwd" "/cwd2" (by decide) (by decide) (by decide) (by decide)
  exact ⟨h.1, h.2 ⟨[], 0⟩ "k" "/cwd" (by decide)⟩

end LazyWork
